import Mathlib

/-!
Verification development for the Project-Management-Dashboard repository.

The frontend (React: `App.js`, `WorkflowView`, `api.js`) is embedded directly
from the source.  The analytics/health-scoring backend (`server.py`) is not
part of the available sources; following the spec, its Aggregator and Health
Scorer are modelled from the spec's contract, and every definition doing so
says so in its doc comment.

Conventions of the embedding:
- JavaScript timestamps (`new Date(s)` values, millisecond epochs) are `Int`.
- JS strings are Lean `String`.
- Optional/nullable record fields are `Option`.
- The ambient system clock that `new Date()` reads is passed as an explicit
  `Int` argument named `ambientNow`, representing the value the clock had at
  the moment of the call.
-/

namespace PMDash

/-- A task record, as produced and consumed by the frontend
(`App.js` task form / task card, `WorkflowView` nodes).
Dates are millisecond timestamps; nullable fields are `Option`. -/
structure Task where
  id : String
  title : String
  description : Option String
  status : String
  priority : String
  project_id : String
  assignee_id : Option String
  due_date : Option Int
  estimated_hours : Option ℚ
  actual_hours : Option ℚ
deriving DecidableEq, Repr, Inhabited

/-- A project record, as produced and consumed by the frontend
(`App.js` project form / project card). -/
structure Project where
  id : String
  name : String
  description : String
  status : String
  progress : ℚ
  start_date : Option Int
  end_date : Option Int
  owner_id : String
  budget : Option ℚ
  team_members : List String
deriving DecidableEq, Repr, Inhabited

/-- Result of the frontend `formatDate` helper when a due date is present:
the rendered date (abstracted as the raw timestamp) and the overdue flag. -/
structure DueDateInfo where
  formatted : Int
  isOverdue : Bool
deriving DecidableEq, Repr

/-- Embedding of `formatDate` from `WorkflowView` (`src/unnamed/part_000`
lines 96-106): returns `null` when there is no due date, otherwise the
rendered date together with
`isOverdue = date < now && status !== 'done'`,
where `now = new Date()` is read from the ambient clock (`ambientNow`).
The `TaskCard.formatDate` in `src/frontend/src/App.js` (lines 573-585)
computes the same `isOverdue` flag. -/
def formatDate (dateString : Option Int) (status : String) (ambientNow : Int) :
    Option DueDateInfo :=
  match dateString with
  | none => none
  | some d => some { formatted := d, isOverdue := decide (d < ambientNow) && (status != "done") }

/-- One day in milliseconds, as a JS `Date` difference. -/
def oneDayMs : Int := 86400000

end PMDash

namespace PMDash

/-- C1: the overdue predicate of `formatDate` holds exactly when the due
date is strictly before the clock value and the status is not `"done"`;
in particular a task due one day before the clock with status `"todo"` is
overdue, and the same task with status `"done"` is not. -/
theorem formatDate_overdue_iff (due now : Int) (status : String) :
    ((formatDate (some due) status now).map DueDateInfo.isOverdue = some true ↔
      (due < now ∧ status ≠ "done")) ∧
    (formatDate (some (now - oneDayMs)) "todo" now).map DueDateInfo.isOverdue = some true ∧
    (formatDate (some (now - oneDayMs)) "done" now).map DueDateInfo.isOverdue = some false := by
  refine ⟨?_, ?_, ?_⟩
  · simp [formatDate, Bool.and_eq_true, decide_eq_true_iff, bne_iff_ne]
  · simp [formatDate, oneDayMs, Bool.and_eq_true, decide_eq_true_iff]
  · simp [formatDate]

/-- C2 counterexample: `formatDate` reads the current time from the ambient
clock, so with the same task snapshot two runs under different ambient clock
values give different results: a task due at time 5 is not overdue when the
clock reads 3 but is overdue when the clock reads 10. -/
theorem formatDate_ambient_clock_dependent :
    formatDate (some 5) "todo" 3 ≠ formatDate (some 5) "todo" 10 := by
  decide

/-- C2 amended: the overdue computation is deterministic in its snapshot
together with the ambient clock value: two runs of `formatDate` on the same
due date and status agree whenever the ambient clock reads the same value at
both calls (but not regardless of the clock, which the code does read). -/
theorem formatDate_deterministic_given_clock (dateString : Option Int) (status : String)
    (c₁ c₂ : Int) (h : c₁ = c₂) :
    formatDate dateString status c₁ = formatDate dateString status c₂ := by
  rw [h]

/-- Witness for C2's amended theorem at a concrete input. -/
theorem formatDate_deterministic_given_clock_witness :
    formatDate (some 5) "todo" 7 = formatDate (some 5) "todo" 7 :=
  formatDate_deterministic_given_clock (some 5) "todo" 7 7 rfl

/-- Modelled from the spec: the backend Aggregator (`server.py`, not among
the available sources) contract `aggregate(items, keyFn) → mapping[key → count]`:
a mapping from each distinct non-null key seen in the input to the number of
items carrying it; items whose categorical field is null are excluded from
the mapping, and no key absent from the input is fabricated.  The mapping is
an association list of `(key, count)` pairs. -/
def aggregate (items : List α) (keyFn : α → Option String) : List (String × Nat) :=
  ((items.filterMap keyFn).dedup).map (fun k => (k, (items.filterMap keyFn).count k))

/-- Modelled from the spec: the backend Aggregator's `totalCount(items)`. -/
def totalCount (items : List α) : Nat :=
  items.length

/-- The overdue test of the spec's Aggregator: due date present, strictly
before `now`, and status not `"done"` (matching the frontend `formatDate`
overdue flag). -/
def isTaskOverdue (t : Task) (now : Int) : Bool :=
  match t.due_date with
  | none => false
  | some d => decide (d < now) && (t.status != "done")

/-- Modelled from the spec: the backend Aggregator's `overdueCount(items, now)`:
count of tasks whose due date is strictly before `now` and whose status is
not `"done"`, with `now` an explicit input. -/
def overdueCount (items : List Task) (now : Int) : Nat :=
  (items.filter (fun t => isTaskOverdue t now)).length

/-- Sum of the counts of an aggregate mapping. -/
def sumValues (m : List (String × Nat)) : Nat :=
  (m.map Prod.snd).sum

/-- Number of items whose categorical field is null and which are therefore
excluded from the grouped mapping. -/
def excludedNullCount (items : List α) (keyFn : α → Option String) : Nat :=
  (items.filter (fun it => (keyFn it).isNone)).length

end PMDash

namespace PMDash

/-- C3: the grouped aggregation contains a count for a key exactly when some
input item carries that key: every distinct key occurring in the input
(including keys occurring once) is preserved, and no key absent from the
input is fabricated. -/
theorem aggregate_keys_iff (items : List α) (keyFn : α → Option String) (k : String) :
    (∃ n, (k, n) ∈ aggregate items keyFn) ↔ (∃ it ∈ items, keyFn it = some k) := by
  constructor
  · rintro ⟨n, hn⟩
    simp only [aggregate, List.mem_map, List.mem_dedup] at hn
    obtain ⟨k', hk', heq⟩ := hn
    obtain ⟨rfl, -⟩ := Prod.mk.injEq .. ▸ heq
    exact List.mem_filterMap.mp hk'
  · intro h
    refine ⟨(items.filterMap keyFn).count k, ?_⟩
    simp only [aggregate, List.mem_map, List.mem_dedup]
    exact ⟨k, List.mem_filterMap.mpr h, rfl⟩

/-- Witness for C3 at a concrete input: a key occurring exactly once is
preserved in the aggregate. -/
theorem aggregate_keys_iff_witness :
    ∃ n, ("todo", n) ∈ aggregate [some "todo", none] id :=
  (aggregate_keys_iff [some "todo", none] id "todo").mpr ⟨some "todo", by simp, rfl⟩

/-- C4: for a non-empty input, the sum of the per-key counts of the grouped
aggregation plus the number of items excluded for a null categorical field
equals the total item count. -/
theorem aggregate_sum_add_excluded (items : List α) (keyFn : α → Option String)
    (_hne : items ≠ []) :
    sumValues (aggregate items keyFn) + excludedNullCount items keyFn =
      totalCount items := by
  have hsum : sumValues (aggregate items keyFn) = (items.filterMap keyFn).length := by
    simp only [sumValues, aggregate, List.map_map]
    have := List.sum_map_count_dedup_eq_length (items.filterMap keyFn)
    simpa [Function.comp] using this
  rw [hsum]
  clear hsum _hne
  induction items with
  | nil => rfl
  | cons a l ih =>
    cases h : keyFn a <;>
      simp [List.filterMap_cons, excludedNullCount, totalCount, List.filter_cons, h] at * <;>
      omega

/-- Witness for C4 at a concrete input: two items with key `"todo"` and one
null-key item sum to the total of three. -/
theorem aggregate_sum_add_excluded_witness :
    sumValues (aggregate [some "todo", some "todo", none] id) +
      excludedNullCount [some "todo", some "todo", none] id =
      totalCount [some "todo", some "todo", none] :=
  aggregate_sum_add_excluded [some "todo", some "todo", none] id (by simp)

/-- The fixed set of health labels of the spec's Health Scorer. -/
inductive HealthLabel where
  | Critical
  | AtRisk
  | Good
  | Excellent
deriving DecidableEq, Repr

/-- Rank of a health label; a larger rank is a better label. -/
def healthRank : HealthLabel → Nat
  | .Critical => 0
  | .AtRisk => 1
  | .Good => 2
  | .Excellent => 3

/-- Modelled from the spec: the Health Scorer's completion ratio
(count of tasks with status done over total task count, 0 when there are no
tasks so that no division by zero occurs). -/
def completionRatio (tasks : List Task) : ℚ :=
  if tasks.length = 0 then 0
  else ((tasks.filter (fun t => t.status == "done")).length : ℚ) / (tasks.length : ℚ)

/-- Modelled from the spec: the Health Scorer's overdue ratio
(`overdueCount(tasks, now)` over total task count, with the same zero
guard). -/
def overdueRatio (tasks : List Task) (now : Int) : ℚ :=
  if tasks.length = 0 then 0
  else (overdueCount tasks now : ℚ) / (tasks.length : ℚ)

/-- Modelled from the spec: the health label combines the completion ratio
and the overdue ratio through nested monotone thresholds; the exact
cutpoints are an implementation choice per the spec, chosen here so that the
spec's end-to-end example (completion 0.5, overdue 0.25) receives "Good". -/
def healthLabel (completion overdue : ℚ) : HealthLabel :=
  if 3/4 ≤ completion ∧ overdue ≤ 1/10 then .Excellent
  else if 1/2 ≤ completion ∧ overdue ≤ 1/4 then .Good
  else if 1/4 ≤ completion ∧ overdue ≤ 1/2 then .AtRisk
  else .Critical

/-- Number of threshold levels reached; used to compare health labels. -/
def healthScore (completion overdue : ℚ) : Nat :=
  (if 1/4 ≤ completion ∧ overdue ≤ 1/2 then 1 else 0) +
  (if 1/2 ≤ completion ∧ overdue ≤ 1/4 then 1 else 0) +
  (if 3/4 ≤ completion ∧ overdue ≤ 1/10 then 1 else 0)

/-- Modelled from the spec: risk factors are produced by independent
predicate-to-message rules evaluated in a fixed declared order. -/
def riskFactorsFor (tasks : List Task) (now : Int) : List String :=
  (if 1/4 < overdueRatio tasks now then ["Overdue ratio exceeds threshold"] else []) ++
  (if tasks ≠ [] ∧ ∀ t ∈ tasks, t.assignee_id = none then ["No tasks are assigned"] else [])

/-- Modelled from the spec: recommendations are produced by independent
predicate-to-message rules evaluated in a fixed declared order. -/
def recommendationsFor (tasks : List Task) (now : Int) : List String :=
  (if tasks = [] then ["Add tasks to the project"] else []) ++
  (if 0 < overdueCount tasks now then ["Reschedule or complete overdue tasks"] else []) ++
  (if tasks ≠ [] ∧ completionRatio tasks < 1/2 then ["Focus on completing open tasks"] else [])

/-- Modelled from the spec: predicted completion is a textual estimate from
the remaining-task count when tasks exist, else a qualitative fallback
string; it is never a failure. -/
def predictedCompletion (tasks : List Task) : String :=
  let remaining := (tasks.filter (fun t => t.status != "done")).length
  if tasks = [] then "Insufficient data to predict completion"
  else "On track to finish the remaining " ++ toString remaining ++ " tasks"

/-- Modelled from the spec: the distinct validation-error kind reported when
the scorer's input is structurally invalid. -/
inductive ValidationError where
  | mismatchedTaskReference
deriving DecidableEq, Repr

/-- The Health Scorer's output record, per the spec's external interface. -/
structure HealthAssessment where
  project_health : HealthLabel
  recommendations : List String
  risk_factors : List String
  predicted_completion : String
deriving DecidableEq, Repr

/-- Modelled from the spec: `assess(project, tasks)` validates that every
task references the supplied project, reporting a validation error (and no
partial aggregate) otherwise; on valid input it derives the health label
from the completion and overdue ratios and generates the recommendation and
risk-factor lists by the fixed-order rules. -/
def assess (p : Project) (tasks : List Task) (now : Int) :
    Except ValidationError HealthAssessment :=
  if tasks.all (fun t => t.project_id == p.id) then
    .ok { project_health := healthLabel (completionRatio tasks) (overdueRatio tasks now),
          recommendations := recommendationsFor tasks now,
          risk_factors := riskFactorsFor tasks now,
          predicted_completion := predictedCompletion tasks }
  else
    .error .mismatchedTaskReference

end PMDash

namespace PMDash

/-- If the Excellent thresholds are met, so are the Good thresholds. -/
theorem excellent_imp_good {c o : ℚ} (h : 3/4 ≤ c ∧ o ≤ 1/10) :
    1/2 ≤ c ∧ o ≤ 1/4 :=
  ⟨by linarith [h.1], by linarith [h.2]⟩

/-- If the Good thresholds are met, so are the At-Risk thresholds. -/
theorem good_imp_atRisk {c o : ℚ} (h : 1/2 ≤ c ∧ o ≤ 1/4) :
    1/4 ≤ c ∧ o ≤ 1/2 :=
  ⟨by linarith [h.1], by linarith [h.2]⟩

/-- The rank of the health label equals the number of threshold levels
reached. -/
theorem healthRank_healthLabel (c o : ℚ) :
    healthRank (healthLabel c o) = healthScore c o := by
  unfold healthLabel healthScore
  by_cases hE : 3/4 ≤ c ∧ o ≤ 1/10
  · have hG := excellent_imp_good hE
    have hA := good_imp_atRisk hG
    rw [if_pos hE, if_pos hA, if_pos hG, if_pos hE]
    decide
  · by_cases hG : 1/2 ≤ c ∧ o ≤ 1/4
    · have hA := good_imp_atRisk hG
      rw [if_neg hE, if_pos hG, if_pos hA, if_pos hG, if_neg hE]
      decide
    · by_cases hA : 1/4 ≤ c ∧ o ≤ 1/2
      · rw [if_neg hE, if_neg hG, if_pos hA, if_pos hA, if_neg hG, if_neg hE]
        decide
      · rw [if_neg hE, if_neg hG, if_neg hA, if_neg hA, if_neg hG, if_neg hE]
        decide

/-- A 0/1 indicator of a monotone-transferred condition is monotone. -/
theorem indicator_mono {P Q : Prop} [Decidable P] [Decidable Q] (h : P → Q) :
    (if P then (1 : Nat) else 0) ≤ (if Q then 1 else 0) := by
  by_cases hp : P
  · rw [if_pos hp, if_pos (h hp)]
  · rw [if_neg hp]
    exact Nat.zero_le _

/-- The threshold count is monotone: raising completion and lowering
overdue never lowers the score. -/
theorem healthScore_mono {c₁ c₂ o₁ o₂ : ℚ} (hc : c₁ ≤ c₂) (ho : o₂ ≤ o₁) :
    healthScore c₁ o₁ ≤ healthScore c₂ o₂ := by
  unfold healthScore
  have h1 := indicator_mono (P := 1/4 ≤ c₁ ∧ o₁ ≤ 1/2) (Q := 1/4 ≤ c₂ ∧ o₂ ≤ 1/2)
    (fun h => ⟨le_trans h.1 hc, le_trans ho h.2⟩)
  have h2 := indicator_mono (P := 1/2 ≤ c₁ ∧ o₁ ≤ 1/4) (Q := 1/2 ≤ c₂ ∧ o₂ ≤ 1/4)
    (fun h => ⟨le_trans h.1 hc, le_trans ho h.2⟩)
  have h3 := indicator_mono (P := 3/4 ≤ c₁ ∧ o₁ ≤ 1/10) (Q := 3/4 ≤ c₂ ∧ o₂ ≤ 1/10)
    (fun h => ⟨le_trans h.1 hc, le_trans ho h.2⟩)
  exact Nat.add_le_add (Nat.add_le_add h1 h2) h3

/-- C5: the health label is monotonic: with a higher (or equal) completion
ratio and a lower (or equal) overdue ratio, the resulting label from
{Excellent, Good, At Risk, Critical} is never strictly worse. -/
theorem healthLabel_monotone (c₁ o₁ c₂ o₂ : ℚ) (hc : c₁ ≤ c₂) (ho : o₂ ≤ o₁) :
    healthRank (healthLabel c₁ o₁) ≤ healthRank (healthLabel c₂ o₂) := by
  rw [healthRank_healthLabel, healthRank_healthLabel]
  exact healthScore_mono hc ho

/-- Witness for C5 at concrete ratios: completion 0 with overdue 1 is not
ranked above completion 1 with overdue 0. -/
theorem healthLabel_monotone_witness :
    (0 : ℚ) ≤ 1 ∧ (0 : ℚ) ≤ 1 ∧
      healthRank (healthLabel 0 1) ≤ healthRank (healthLabel 1 0) :=
  ⟨by norm_num, by norm_num, healthLabel_monotone 0 1 1 0 (by norm_num) (by norm_num)⟩

/-- C6: the health assessment is deterministic: two calls of `assess` on
identical inputs return identical outputs, including identical
recommendation and risk-factor lists (in the same order). -/
theorem assess_deterministic (p₁ p₂ : Project) (ts₁ ts₂ : List Task) (n₁ n₂ : Int)
    (hp : p₁ = p₂) (ht : ts₁ = ts₂) (hn : n₁ = n₂) :
    assess p₁ ts₁ n₁ = assess p₂ ts₂ n₂ ∧
    (assess p₁ ts₁ n₁).map HealthAssessment.recommendations =
      (assess p₂ ts₂ n₂).map HealthAssessment.recommendations ∧
    (assess p₁ ts₁ n₁).map HealthAssessment.risk_factors =
      (assess p₂ ts₂ n₂).map HealthAssessment.risk_factors := by
  subst hp; subst ht; subst hn
  exact ⟨rfl, rfl, rfl⟩

/-- Witness for C6 at a concrete project and task list. -/
theorem assess_deterministic_witness :
    assess ⟨"p1", "N", "D", "planning", 0, none, none, "u1", none, []⟩
        [⟨"t1", "T", none, "todo", "medium", "p1", none, some 0, none, none⟩] 0 =
      assess ⟨"p1", "N", "D", "planning", 0, none, none, "u1", none, []⟩
        [⟨"t1", "T", none, "todo", "medium", "p1", none, some 0, none, none⟩] 0 :=
  (assess_deterministic _ _ _ _ _ _ rfl rfl rfl).1

/-- C7: empty input is never an error: the aggregate of an empty collection
is the empty mapping, the total and overdue counts of an empty task list are
zero, and the completion and overdue ratios of an empty task list are 0, so
no division by zero occurs. -/
theorem empty_input_guards (keyFn : α → Option String) (now : Int) :
    aggregate ([] : List α) keyFn = [] ∧
    totalCount ([] : List Task) = 0 ∧
    overdueCount [] now = 0 ∧
    completionRatio [] = 0 ∧
    overdueRatio [] now = 0 :=
  ⟨rfl, rfl, rfl, rfl, rfl⟩

/-- C8: the scorer fails exactly on structurally invalid input: it reports
the distinct validation error when some task's project reference does not
match the supplied project (producing no partial aggregate), and on matching
references it always succeeds — in particular missing optional fields never
cause a failure. -/
theorem assess_error_iff (p : Project) (ts : List Task) (now : Int) :
    ((∃ t ∈ ts, t.project_id ≠ p.id) →
        assess p ts now = .error .mismatchedTaskReference) ∧
    ((∀ t ∈ ts, t.project_id = p.id) → ∃ a, assess p ts now = .ok a) := by
  constructor
  · rintro ⟨t, ht, hne⟩
    have hall : ¬ (ts.all (fun t => t.project_id == p.id) = true) := by
      simp only [List.all_eq_true, beq_iff_eq]
      intro h
      exact hne (h t ht)
    simp [assess, hall]
  · intro h
    have hall : ts.all (fun t => t.project_id == p.id) = true := by
      simp only [List.all_eq_true, beq_iff_eq]
      exact h
    exact ⟨_, by unfold assess; rw [if_pos hall]⟩

/-- Witness for C8: a task referencing project "p2" makes `assess` on
project "p1" report the validation error. -/
theorem assess_error_iff_witness :
    assess ⟨"p1", "N", "D", "planning", 0, none, none, "u1", none, []⟩
        [⟨"t1", "T", none, "todo", "medium", "p2", none, none, none, none⟩] 0 =
      .error .mismatchedTaskReference :=
  (assess_error_iff _ _ 0).1
    ⟨⟨"t1", "T", none, "todo", "medium", "p2", none, none, none, none⟩,
      by simp, by decide⟩

end PMDash

namespace PMDash

/-- A React Flow edge as built by `fetchData` in `WorkflowView`
(`src/unnamed/part_000` lines 218-234).  The edge id `e{i}-{i+1}` is kept as
the index pair `(srcIndex, tgtIndex)`; `source`/`target` are the node (task)
ids and `animated` mirrors `taskNodes[i].data.status === 'in_progress'`. -/
structure FlowEdge where
  srcIndex : Nat
  tgtIndex : Nat
  source : String
  target : String
  animated : Bool
deriving DecidableEq, Repr

/-- Embedding of the edge-construction loop of `fetchData` in `WorkflowView`:
`for (let i = 0; i < taskNodes.length - 1; i++)` pushes an edge from node `i`
to node `i + 1` when `i % 3 === 0 && i + 1 < taskNodes.length`, animated when
the source task's status is `in_progress`.  Nodes are the fetched tasks in
order, node ids are the task ids. -/
def workflowEdges (tasks : List Task) : List FlowEdge :=
  (List.range (tasks.length - 1)).filterMap (fun i =>
    if i % 3 = 0 ∧ i + 1 < tasks.length then
      some { srcIndex := i, tgtIndex := i + 1,
             source := (tasks.getD i default).id,
             target := (tasks.getD (i + 1) default).id,
             animated := (tasks.getD i default).status == "in_progress" }
    else none)

end PMDash

namespace PMDash

/-- C9: the workflow view's dependency edges are synthetic: for a fetched
task list of length n, an edge with source index i exists exactly when
`i % 3 = 0` and `i + 1 < n`; every edge goes from node i to node i + 1,
carries the corresponding task ids, and is animated exactly when the source
task's status is `"in_progress"`. -/
theorem workflowEdges_spec (tasks : List Task) :
    (∀ i : Nat,
      (∃ e ∈ workflowEdges tasks, e.srcIndex = i) ↔
        (i % 3 = 0 ∧ i + 1 < tasks.length)) ∧
    (∀ e ∈ workflowEdges tasks,
      e.tgtIndex = e.srcIndex + 1 ∧
      e.source = (tasks.getD e.srcIndex default).id ∧
      e.target = (tasks.getD (e.srcIndex + 1) default).id ∧
      (e.animated = true ↔ (tasks.getD e.srcIndex default).status = "in_progress")) := by
  constructor
  · intro i
    constructor
    · rintro ⟨e, he, rfl⟩
      obtain ⟨j, _hj, hfe⟩ := List.mem_filterMap.mp he
      by_cases h : j % 3 = 0 ∧ j + 1 < tasks.length
      · rw [if_pos h] at hfe
        cases hfe
        exact h
      · rw [if_neg h] at hfe
        exact absurd hfe (by simp)
    · rintro ⟨h3, hlt⟩
      refine ⟨{ srcIndex := i, tgtIndex := i + 1,
                source := (tasks.getD i default).id,
                target := (tasks.getD (i + 1) default).id,
                animated := (tasks.getD i default).status == "in_progress" },
              List.mem_filterMap.mpr ⟨i, List.mem_range.mpr (by omega), ?_⟩, rfl⟩
      rw [if_pos ⟨h3, hlt⟩]
  · intro e he
    obtain ⟨j, _hj, hfe⟩ := List.mem_filterMap.mp he
    by_cases h : j % 3 = 0 ∧ j + 1 < tasks.length
    · rw [if_pos h] at hfe
      cases hfe
      exact ⟨rfl, rfl, rfl, by simp [beq_iff_eq]⟩
    · rw [if_neg h] at hfe
      exact absurd hfe (by simp)

/-- Witness for C9 at a concrete two-task list: the edge from node 0 to
node 1 exists. -/
theorem workflowEdges_spec_witness :
    ∃ e ∈ workflowEdges
        [⟨"t1", "A", none, "in_progress", "low", "p1", none, none, none, none⟩,
         ⟨"t2", "B", none, "todo", "low", "p1", none, none, none, none⟩],
      e.srcIndex = 0 :=
  ((workflowEdges_spec _).1 0).mpr ⟨rfl, by decide⟩

/-- Embedding of `handleDeleteTask` (`src/frontend/src/App.js` lines
934-947) as the update it performs on the local task list: without
confirmation the handler returns early; when the API delete fails the catch
branch leaves the list unchanged; on success the list becomes
`tasks.filter(t => t.id !== taskId)`. -/
def handleDeleteTask (tasks : List Task) (taskId : String)
    (confirmed apiOk : Bool) : List Task :=
  if !confirmed then tasks
  else if apiOk then tasks.filter (fun t => t.id != taskId)
  else tasks

/-- Embedding of `handleDeleteProject` (`src/frontend/src/App.js` lines
1897-1910), identical in shape to `handleDeleteTask` on the project list. -/
def handleDeleteProject (projects : List Project) (projectId : String)
    (confirmed apiOk : Bool) : List Project :=
  if !confirmed then projects
  else if apiOk then projects.filter (fun p => p.id != projectId)
  else projects

/-- After a confirmed successful delete, exactly the items whose id equals
the given id disappear, all other items keep their multiplicity, and the
survivors stay in their original relative order (the result is a sublist). -/
theorem delete_frame_filter {β : Type} [DecidableEq β] (l : List β) (idOf : β → String)
    (theId : String) :
    (l.filter (fun x => idOf x != theId)).Sublist l ∧
    (∀ x : β, (l.filter (fun x => idOf x != theId)).count x =
        if idOf x = theId then 0 else l.count x) := by
  refine ⟨List.filter_sublist l, fun x => ?_⟩
  by_cases hx : idOf x = theId
  · rw [if_pos hx]
    rw [List.count_eq_zero]
    intro hmem
    have := (List.mem_filter.mp hmem).2
    simp [hx] at this
  · rw [if_neg hx]
    exact List.count_filter (by simp [hx])

end PMDash

namespace PMDash

/-- C10: deleting a task or a project after a confirmed successful API
delete removes exactly the items whose id equals the given id, leaves every
other item with its multiplicity in its original relative order, and on API
failure the list is unchanged. -/
theorem handleDelete_frame (tasks : List Task) (projects : List Project)
    (tid pid : String) :
    handleDeleteTask tasks tid true false = tasks ∧
    (handleDeleteTask tasks tid true true).Sublist tasks ∧
    (∀ t : Task, (handleDeleteTask tasks tid true true).count t =
        if t.id = tid then 0 else tasks.count t) ∧
    handleDeleteProject projects pid true false = projects ∧
    (handleDeleteProject projects pid true true).Sublist projects ∧
    (∀ p : Project, (handleDeleteProject projects pid true true).count p =
        if p.id = pid then 0 else projects.count p) := by
  have ht := delete_frame_filter tasks Task.id tid
  have hp := delete_frame_filter projects Project.id pid
  exact ⟨rfl, ht.1, ht.2, rfl, hp.1, hp.2⟩

end PMDash
